import Mathlib

/-!
Shallow embedding of the swap-execution subsystem of the `xud` repository:
the `ConnextClient` backend adapter (`ConnextClient.sendPayment`,
`executeHashLockTransfer`, `executeHashLockResolve`, `lookupPayment`,
`initSpecific`, `channelBalance`, `sendRequest`) and the `OrderPacket`
serialization (`toRaw` / `fromRaw`).

Network I/O is modelled by passing the backend's reply (or the whole
request function) as an explicit argument, and each operation additionally
returns the list of backend calls it performed, so that claims of the form
"performs no network call" and "calls X, never Y" are expressible.
JavaScript strings are modelled as Lean `String`s, with the JavaScript
truthiness test (`undefined` and the empty string are falsy) made explicit.
JavaScript numbers appearing as integer unit amounts are modelled as `Nat`
(`Int` for serialized JSON numbers).
-/

namespace Xud

/-- JavaScript truthiness of a string: only `""` is falsy. -/
def jsStrTruthy (s : String) : Bool :=
  !s.data.isEmpty

/-- JavaScript truthiness of an optional string: `undefined` and `""` are
falsy, every other string is truthy. -/
def jsTruthy : Option String → Bool
  | none => false
  | some s => jsStrTruthy s

/-- JavaScript `s.startsWith(p)`, modelled on the character lists underlying
the strings. -/
def jsStartsWith (s p : String) : Bool :=
  p.data.isPrefixOf s.data

/-- JavaScript `s.slice(2)`: drop the first two characters. -/
def jsSlice2 (s : String) : String :=
  ⟨s.data.drop 2⟩

/-! ## Error taxonomy

Modelled from the spec: the shared error taxonomy of §7 together with the
error codes used by `ConnextClient` (`errorCodes` from `connext/errors` and
the Node.js socket error codes); the `errors.ts` modules themselves are not
part of the excerpted source, but every code the excerpt compares against
is listed here as a distinct constructor. -/
inductive ErrorCode where
  | econnreset
  | econnrefused
  | insufficientBalance
  | timeout
  | serverError
  | unexpected
  | invalidTokenPaymentResponse
  | paymentNotFound
  | tokenAddressNotFound
  deriving DecidableEq, Repr

/-- A thrown/rejected JavaScript error value as observed by the `catch`
blocks of the excerpt: an optional machine-readable `code` (raw `Error`s
and rejected plain strings carry none) and a human-readable message. -/
structure ThrownError where
  code : Option ErrorCode
  message : String
  deriving DecidableEq, Repr

/-- Modelled from the spec: `errors.INSUFFICIENT_BALANCE` (§7 `InsufficientBalance`). -/
def INSUFFICIENT_BALANCE : ThrownError := ⟨some .insufficientBalance, "insufficient balance"⟩

/-- Modelled from the spec: `errors.TIMEOUT` (§7 `Timeout`). -/
def TIMEOUT : ThrownError := ⟨some .timeout, "timeout"⟩

/-- Modelled from the spec: `errors.SERVER_ERROR` (§7 `ServerError`). -/
def SERVER_ERROR : ThrownError := ⟨some .serverError, "server error"⟩

/-- Modelled from the spec: `errors.UNEXPECTED` (§7 `Unexpected`). -/
def UNEXPECTED : ThrownError := ⟨some .unexpected, "unexpected"⟩

/-- Modelled from the spec: `errors.INVALID_TOKEN_PAYMENT_RESPONSE`
(§7 `InvalidPaymentResponse`). -/
def INVALID_TOKEN_PAYMENT_RESPONSE : ThrownError :=
  ⟨some .invalidTokenPaymentResponse, "invalid token payment response"⟩

/-- Modelled from the spec: `errors.PAYMENT_NOT_FOUND` (§7 `PaymentNotFound`). -/
def PAYMENT_NOT_FOUND : ThrownError := ⟨some .paymentNotFound, "payment not found"⟩

/-- Modelled from the spec: `errors.TOKEN_ADDRESS_NOT_FOUND` (§4.4 `UnsupportedCurrency`). -/
def TOKEN_ADDRESS_NOT_FOUND : ThrownError := ⟨some .tokenAddressNotFound, "token address not found"⟩

/-- The raw `Error` thrown by `initSpecific` when no seed is configured
(`new Error('Cannot initialize ConnextClient without seed')`): a plain
error carrying no machine-readable code. The spec classifies it as
`MissingCredentials`. -/
def MISSING_SEED_ERROR : ThrownError :=
  ⟨none, "Cannot initialize ConnextClient without seed"⟩

/-! ## Shared swap-client types

Modelled from the spec (§3, §4.2): these enumerations live in
`constants/enums` and `swaps/SwapClient`, which are not part of the
excerpted source; the excerpt imports them. -/

/-- Modelled from the spec: the role of this node in a deal (§3). -/
inductive SwapRole where
  | Maker
  | Taker
  deriving DecidableEq, Repr

/-- Modelled from the spec: the deal lifecycle states of §4.3
(`Created → Active → Completed | Failed`). Only `Active` is inspected by
the excerpted code. -/
inductive SwapState where
  | Created
  | Active
  | Completed
  | Failed
  deriving DecidableEq, Repr

/-- Modelled from the spec: per-adapter connectivity status (§3). -/
inductive ClientStatus where
  | NotInitialized
  | Initialized
  | ConnectionVerified
  | Disconnected
  deriving DecidableEq, Repr

/-- Modelled from the spec: the payment states returned by `lookupPayment`
(§4.2): one of Pending, Succeeded, Failed. -/
inductive PaymentState where
  | Pending
  | Succeeded
  | Failed
  deriving DecidableEq, Repr

/-- Modelled from the spec: the channel balance snapshot returned by
`channelBalance` (§3). -/
structure ChannelBalance where
  balance : Nat
  pendingOpenBalance : Nat
  inactiveBalance : Nat
  deriving DecidableEq, Repr

/-- The fields of a `SwapDeal` read by `ConnextClient.sendPayment`
(`swaps/types` is not excerpted; fields and optionality follow the spec §3
and the excerpt's uses). Optional fields are those the code tests for
truthiness or asserts on. -/
structure SwapDeal where
  state : SwapState
  role : SwapRole
  destination : Option String
  rPreimage : Option String
  rHash : String
  takerCurrency : String
  makerCurrency : String
  takerUnits : Nat
  makerUnits : Nat
  makerCltvDelta : Option Nat
  deriving DecidableEq, Repr

/-- The payload sent to `POST /hashlock-transfer` as constructed by
`sendPayment` and `sendSmallestAmount`: `{amount, assetId, lockHash,
timelock}`. `assetId` is optional because `tokenAddresses.get(...)!` can
produce `undefined` that is passed along unchecked. -/
structure TokenPaymentRequest where
  amount : String
  assetId : Option String
  lockHash : String
  timelock : Option Nat
  deriving DecidableEq, Repr

/-- The parsed body of a `/hashlock-transfer` response: `{ preImage }`,
possibly absent. -/
structure ConnextTransferResponse where
  preImage : Option String
  deriving DecidableEq, Repr

/-! ## sendRequest: HTTP status mapping -/

/-- `ConnextClient.sendRequest`, restricted to what it does with the HTTP
response it receives: resolve on 200/201/204, reject 402 with
`errors.INSUFFICIENT_BALANCE`, 408 with `errors.TIMEOUT`, 409 with the
message string carried in the response body (a plain string, carrying no
error code), 500 with `errors.SERVER_ERROR`, and everything else with
`errors.UNEXPECTED`. -/
def sendRequest (statusCode : Nat) (bodyMessage : String) : Except ThrownError Unit :=
  if statusCode = 200 ∨ statusCode = 201 ∨ statusCode = 204 then .ok ()
  else if statusCode = 402 then .error INSUFFICIENT_BALANCE
  else if statusCode = 408 then .error TIMEOUT
  else if statusCode = 409 then .error ⟨none, bodyMessage⟩
  else if statusCode = 500 then .error SERVER_ERROR
  else .error UNEXPECTED

/-! ## Hash-lock transfer and resolve -/

/-- `ConnextClient.executeHashLockTransfer`: POST the payload to
`/hashlock-transfer` (modelled by the `request` argument, which covers
`sendRequest` plus `parseResponseBody`), then require the returned
`preImage` to be truthy and to start with `0x`; on success return it with
the `0x` prefix removed, otherwise throw
`errors.INVALID_TOKEN_PAYMENT_RESPONSE`. -/
def executeHashLockTransfer
    (request : TokenPaymentRequest → Except ThrownError ConnextTransferResponse)
    (payload : TokenPaymentRequest) : Except ThrownError String :=
  match request payload with
  | .error e => .error e
  | .ok resp =>
    match resp.preImage with
    | some secret =>
      if jsStrTruthy secret && jsStartsWith secret "0x" then .ok (jsSlice2 secret)
      else .error INVALID_TOKEN_PAYMENT_RESPONSE
    | none => .error INVALID_TOKEN_PAYMENT_RESPONSE

/-- `ConnextClient.executeHashLockResolve`: POST `{ preImage }` to
`/hashlock-resolve` (modelled by the `request` argument), then require the
`preImage` argument to be truthy and to start with `0x`; on success return
it with the `0x` prefix removed, otherwise throw
`errors.INVALID_TOKEN_PAYMENT_RESPONSE`. -/
def executeHashLockResolve
    (request : String → Except ThrownError Unit)
    (preImage : String) : Except ThrownError String :=
  match request preImage with
  | .error e => .error e
  | .ok _ =>
    if jsStrTruthy preImage && jsStartsWith preImage "0x" then .ok (jsSlice2 preImage)
    else .error INVALID_TOKEN_PAYMENT_RESPONSE

/-! ## sendPayment -/

/-- A record of one backend hash-lock call made during `sendPayment`. -/
inductive LegCall where
  | transfer (payload : TokenPaymentRequest)
  | resolve (preImage : String)
  deriving DecidableEq, Repr

/-- What `sendPayment` can throw: the assertion failure of its entry
preconditions, one of the two classified swap errors
(`swapErrors.UNKNOWN_PAYMENT_ERROR` / `swapErrors.FINAL_PAYMENT_ERROR`),
or an unclassified backend error escaping raw (never produced by the code;
present so that the propagation policy is a statement, not a typing
artifact). -/
inductive SendPaymentError where
  | assertionViolation
  | unknownPaymentError (message : String)
  | finalPaymentError (message : String)
  | raw (e : ThrownError)
  deriving DecidableEq, Repr

/-- The `catch` block of `ConnextClient.sendPayment`: classify a thrown
error by its `code`. `ECONNRESET`, `errorCodes.UNEXPECTED`,
`errorCodes.TIMEOUT`, `errorCodes.SERVER_ERROR` and
`errorCodes.INVALID_TOKEN_PAYMENT_RESPONSE` become
`swapErrors.UNKNOWN_PAYMENT_ERROR`; every other error (any other code, or
no code at all) becomes `swapErrors.FINAL_PAYMENT_ERROR`. -/
def classifySendPaymentError (err : ThrownError) : SendPaymentError :=
  match err.code with
  | some .econnreset
  | some .unexpected
  | some .timeout
  | some .serverError
  | some .invalidTokenPaymentResponse => .unknownPaymentError err.message
  | _ => .finalPaymentError err.message

/-- `ConnextClient.sendPayment`. Asserts that the deal is `Active` and has
a truthy destination; then, when this node is the Maker and already knows
the preimage, redeems via `executeHashLockResolve`, and otherwise creates
a new lock via `executeHashLockTransfer` with the maker amount, the maker
currency's token address, the deal's `rHash` and `makerCltvDelta`; any
error thrown by the leg is classified by its `code` into
`UNKNOWN_PAYMENT_ERROR` (ECONNRESET, UNEXPECTED, TIMEOUT, SERVER_ERROR,
INVALID_TOKEN_PAYMENT_RESPONSE) or `FINAL_PAYMENT_ERROR` (everything
else). Returns the outcome together with the backend calls performed. -/
def sendPayment
    (transferRequest : TokenPaymentRequest → Except ThrownError ConnextTransferResponse)
    (resolveRequest : String → Except ThrownError Unit)
    (tokenAddresses : String → Option String)
    (deal : SwapDeal) : Except SendPaymentError String × List LegCall :=
  if ¬(deal.state = SwapState.Active ∧ jsTruthy deal.destination = true) then
    (.error .assertionViolation, [])
  else
    let leg : Except ThrownError String × List LegCall :=
      if deal.role = SwapRole.Maker ∧ jsTruthy deal.rPreimage = true then
        let preimage := deal.rPreimage.getD ""
        (executeHashLockResolve resolveRequest preimage, [.resolve preimage])
      else
        let payload : TokenPaymentRequest :=
          { amount := toString deal.makerUnits
            assetId := tokenAddresses deal.makerCurrency
            lockHash := deal.rHash
            timelock := deal.makerCltvDelta }
        (executeHashLockTransfer transferRequest payload, [.transfer payload])
    let outcome : Except SendPaymentError String :=
      match leg.1 with
      | .ok secret => .ok secret
      | .error err => .error (classifySendPaymentError err)
    (outcome, leg.2)

/-! ## lookupPayment -/

/-- `ConnextClient.lookupPayment`: query `/hashlock-status/{rHash}`
(modelled by the `statusResult` argument, covering `getHashLockStatus`),
map the backend status string to a `PaymentState` (`PENDING` to pending,
`COMPLETED` to succeeded, `EXPIRED` and `FAILED` and anything else to
failed), and turn every error of the query into
`errors.PAYMENT_NOT_FOUND`. -/
def lookupPayment (statusResult : Except ThrownError String) :
    Except ThrownError PaymentState :=
  match statusResult with
  | .ok status =>
    if status = "PENDING" then .ok .Pending
    else if status = "COMPLETED" then .ok .Succeeded
    else if status = "EXPIRED" then .ok .Failed
    else if status = "FAILED" then .ok .Failed
    else .ok .Failed
  | .error _ => .error PAYMENT_NOT_FOUND

/-! ## initSpecific -/

/-- The observable state of a `ConnextClient` instance relevant to
initialization: the configured seed and the adapter status. -/
structure ConnextState where
  seed : Option String
  status : ClientStatus
  deriving DecidableEq, Repr

/-- A record of one REST call made by the client. -/
structure ApiCall where
  endpoint : String
  method : String
  deriving DecidableEq, Repr

/-- `ConnextClient.initSpecific`: throw a raw error when no seed is
configured (before any backend call); otherwise call `initConnextClient`
(`POST /connect`, whose outcome is the `connectResult` argument), set the
status to `Initialized`, and run `verifyConnectionWithTimeout` (a base
class member outside the excerpt, modelled by the opaque-as-argument
`verifyConn` function from the status to the new status and the calls it
makes). -/
def initSpecific
    (connectResult : Except ThrownError Unit)
    (verifyConn : ClientStatus → ClientStatus × List ApiCall)
    (st : ConnextState) :
    Except ThrownError Unit × ConnextState × List ApiCall :=
  match st.seed with
  | none => (.error MISSING_SEED_ERROR, st, [])
  | some _ =>
    match connectResult with
    | .error e => (.error e, st, [⟨"/connect", "POST"⟩])
    | .ok _ =>
      let afterInit : ConnextState := { st with status := .Initialized }
      let verified := verifyConn afterInit.status
      (.ok (), { afterInit with status := verified.1 }, ⟨"/connect", "POST"⟩ :: verified.2)

/-! ## channelBalance -/

/-- The parsed body of a `GET /balance/{tokenAddress}` response:
`{ freeBalance }` in the backend's units. -/
structure ConnextBalanceResponse where
  freeBalance : Nat
  deriving DecidableEq, Repr

/-- `ConnextClient.channelBalance`: with a falsy currency argument return
the all-zero balance immediately; otherwise resolve the currency's token
address (`getTokenAddress` throws `errors.TOKEN_ADDRESS_NOT_FOUND` when
unconfigured, before any network call), query `GET
/balance/{tokenAddress}` (the `balanceRequest` argument), convert the
returned `freeBalance` with the unit converter (the `unitsToAmount`
argument; the `UnitConverter` is outside the excerpt), and return it as
`pendingOpenBalance` with `inactiveBalance` 0 and `balance` their sum.
Returns the outcome together with the REST calls performed. -/
def channelBalance
    (tokenAddresses : String → Option String)
    (balanceRequest : String → Except ThrownError ConnextBalanceResponse)
    (unitsToAmount : String → Nat → Nat)
    (currency : Option String) :
    Except ThrownError ChannelBalance × List ApiCall :=
  if jsTruthy currency = false then
    (.ok { balance := 0, pendingOpenBalance := 0, inactiveBalance := 0 }, [])
  else
    let cur := currency.getD ""
    match tokenAddresses cur with
    | none => (.error TOKEN_ADDRESS_NOT_FOUND, [])
    | some tokenAddress =>
      match balanceRequest tokenAddress with
      | .error e => (.error e, [⟨"/balance/" ++ tokenAddress, "GET"⟩])
      | .ok resp =>
        let pendingOpenBalance := unitsToAmount cur resp.freeBalance
        let inactiveBalance := 0
        let balance := pendingOpenBalance + inactiveBalance
        (.ok { balance, pendingOpenBalance, inactiveBalance },
          [⟨"/balance/" ++ tokenAddress, "GET"⟩])

/-! ## OrderPacket serialization

`OrderPacket.toRaw` is `JSON.stringify(this.body)` and `OrderPacket.fromRaw`
is `new OrderPacket(JSON.parse(body))`. The JSON fragment exercised by an
`OrderPacketBody` — a flat object whose values are strings and integer
numbers — is modelled here: `printObject` is `JSON.stringify` for such
objects (including its string-escaping rules: `\"`, `\\`, `\b`, `\t`,
`\n`, `\f`, `\r`, and `\u00XX` for the remaining control characters), and
`parseObjectTop` is the corresponding restriction of `JSON.parse` (inputs
outside this fragment — nested values, fractions, exponents, whitespace —
are rejected rather than parsed). JavaScript numbers are modelled as
integers. -/

/-- Lowercase hex digit character for `n < 16`, as emitted by
`JSON.stringify` in `\u00XX` escapes. -/
def hexDigitChar (n : Nat) : Char :=
  if n < 10 then Char.ofNat (48 + n) else Char.ofNat (87 + n)

/-- Numeric value of a hex digit character, if it is one. -/
def hexVal (c : Char) : Option Nat :=
  if 48 ≤ c.toNat ∧ c.toNat ≤ 57 then some (c.toNat - 48)
  else if 97 ≤ c.toNat ∧ c.toNat ≤ 102 then some (c.toNat - 87)
  else if 65 ≤ c.toNat ∧ c.toNat ≤ 70 then some (c.toNat - 55)
  else none

/-- The escape of one character inside a JSON string literal, following
`JSON.stringify`: quote and backslash get a backslash escape, the five
named control characters get their short escapes, every other control
character gets a `\u00XX` escape, and all other characters stand for
themselves. -/
def escapeChar (c : Char) : List Char :=
  if c = '"' then ['\\', '"']
  else if c = '\\' then ['\\', '\\']
  else if c = Char.ofNat 8 then ['\\', 'b']
  else if c = Char.ofNat 9 then ['\\', 't']
  else if c = Char.ofNat 10 then ['\\', 'n']
  else if c = Char.ofNat 12 then ['\\', 'f']
  else if c = Char.ofNat 13 then ['\\', 'r']
  else if c.toNat < 32 then
    ['\\', 'u', '0', '0', hexDigitChar (c.toNat / 16), hexDigitChar (c.toNat % 16)]
  else [c]

/-- Escape every character of a string body. -/
def escapeList : List Char → List Char
  | [] => []
  | c :: rest => escapeChar c ++ escapeList rest

/-- A JSON string literal: quote, escaped body, quote. -/
def strLit (s : List Char) : List Char :=
  '"' :: (escapeList s ++ ['"'])

/-- The character a short escape `\c` stands for, if `c` is one of the
short escapes accepted by `JSON.parse`. -/
def unescapeChar (c : Char) : Option Char :=
  if c = '"' then some '"'
  else if c = '\\' then some '\\'
  else if c = '/' then some '/'
  else if c = 'b' then some (Char.ofNat 8)
  else if c = 't' then some (Char.ofNat 9)
  else if c = 'n' then some (Char.ofNat 10)
  else if c = 'f' then some (Char.ofNat 12)
  else if c = 'r' then some (Char.ofNat 13)
  else none

/-- Parse the body of a JSON string literal after its opening quote, up to
and including the closing quote, undoing the escapes. -/
def parseStringBody : List Char → Option (List Char × List Char)
  | [] => none
  | c :: rest =>
    if c = '"' then some ([], rest)
    else if c = '\\' then
      match rest with
      | [] => none
      | e :: rest2 =>
        if e = 'u' then
          match rest2 with
          | h1 :: h2 :: h3 :: h4 :: rest3 =>
            match hexVal h1, hexVal h2, hexVal h3, hexVal h4 with
            | some a, some b, some c2, some d =>
              (parseStringBody rest3).map
                (fun p => (Char.ofNat (((a * 16 + b) * 16 + c2) * 16 + d) :: p.1, p.2))
            | _, _, _, _ => none
          | _ => none
        else
          match unescapeChar e with
          | some c2 => (parseStringBody rest2).map (fun p => (c2 :: p.1, p.2))
          | none => none
    else (parseStringBody rest).map (fun p => (c :: p.1, p.2))

/-- Print a natural number in decimal in front of `acc`. -/
def printNatAux (n : Nat) (acc : List Char) : List Char :=
  if h : n < 10 then Char.ofNat (48 + n) :: acc
  else printNatAux (n / 10) (Char.ofNat (48 + n % 10) :: acc)
  termination_by n
  decreasing_by exact Nat.div_lt_self (by omega) (by omega)

/-- The number of decimal digits `printNatAux` emits. -/
def digitCount (n : Nat) : Nat :=
  if n < 10 then 1 else digitCount (n / 10) + 1
  termination_by n
  decreasing_by exact Nat.div_lt_self (by omega) (by omega)

/-- Print an integer the way `JSON.stringify` prints an integral number. -/
def printInt (i : Int) : List Char :=
  if i < 0 then '-' :: printNatAux i.natAbs []
  else printNatAux i.natAbs []

/-- Accumulate decimal digits from the front of the input. -/
def parseDigitsAux : Nat → List Char → Nat × List Char
  | acc, [] => (acc, [])
  | acc, c :: rest =>
    if c.isDigit then parseDigitsAux (acc * 10 + (c.toNat - 48)) rest
    else (acc, c :: rest)

/-- Whether the input starts with a decimal digit. -/
def headIsDigit : List Char → Bool
  | [] => false
  | c :: _ => c.isDigit

/-- Parse a nonempty run of decimal digits as a natural number. -/
def parseNatNum (l : List Char) : Option (Nat × List Char) :=
  if headIsDigit l then some (parseDigitsAux 0 l) else none

/-- A primitive JSON value as appearing in an `OrderPacketBody`: a string
or an (integral) number. -/
inductive JsonPrim where
  | jstr (s : List Char)
  | jnum (n : Int)
  deriving DecidableEq, Repr

/-- Print a primitive JSON value. -/
def printPrim : JsonPrim → List Char
  | .jstr s => strLit s
  | .jnum n => printInt n

/-- Parse a primitive JSON value: a string literal, or an optionally
negated run of digits. -/
def parseJValue : List Char → Option (JsonPrim × List Char)
  | [] => none
  | c :: rest =>
    if c = '"' then (parseStringBody rest).map (fun p => (JsonPrim.jstr p.1, p.2))
    else if c = '-' then
      match parseNatNum rest with
      | some (n, rest2) => some (JsonPrim.jnum (-(n : Int)), rest2)
      | none => none
    else
      match parseNatNum (c :: rest) with
      | some (n, rest2) => some (JsonPrim.jnum (n : Int), rest2)
      | none => none

/-- Print one `key: value` object member. -/
def printMember (f : List Char × JsonPrim) : List Char :=
  strLit f.1 ++ ':' :: printPrim f.2

/-- Print the comma-separated members of an object, without the braces. -/
def printInner : List (List Char × JsonPrim) → List Char
  | [] => []
  | [f] => printMember f
  | f :: fs => printMember f ++ ',' :: printInner fs

/-- `JSON.stringify` of a flat object with string/number values, in member
order. -/
def printObject (fields : List (List Char × JsonPrim)) : List Char :=
  '{' :: (printInner fields ++ ['}'])

/-- Parse the members of an object after its opening brace, up to and
including the closing brace. The fuel bounds the number of members; the
callers pass the input length. -/
def parseMembers : Nat → List Char → Option (List (List Char × JsonPrim) × List Char)
  | 0, _ => none
  | _ + 1, [] => none
  | fuel + 1, c :: rest =>
    if c = '"' then
      match parseStringBody rest with
      | none => none
      | some (key, rest1) =>
        match rest1 with
        | [] => none
        | c1 :: rest2 =>
          if c1 = ':' then
            match parseJValue rest2 with
            | none => none
            | some (v, rest3) =>
              match rest3 with
              | [] => none
              | c2 :: rest4 =>
                if c2 = ',' then
                  match parseMembers fuel rest4 with
                  | none => none
                  | some (fields, rest5) => some ((key, v) :: fields, rest5)
                else if c2 = '}' then some ([(key, v)], rest4)
                else none
          else none
    else none

/-- `JSON.parse` of a flat object with string/number values: opening
brace, members, closing brace. -/
def parseObjectTop (l : List Char) : Option (List (List Char × JsonPrim) × List Char) :=
  match l with
  | [] => none
  | c :: rest =>
    if c = '{' then
      match rest with
      | [] => none
      | c1 :: rest1 =>
        if c1 = '}' then some ([], rest1) else parseMembers rest.length rest
    else none

/-- Look a key up among parsed object members (first match, as property
access on the parsed object). -/
def lookupField : List (List Char × JsonPrim) → List Char → Option JsonPrim
  | [], _ => none
  | f :: fs, key => if f.1 = key then some f.2 else lookupField fs key

/-- The body of an `OrderPacket`: `{id, pairId, quantity, price, invoice}`
with string identifiers and numeric quantity and price (JavaScript numbers
modelled as integers). -/
structure OrderPacketBody where
  id : String
  pairId : String
  quantity : Int
  price : Int
  invoice : String
  deriving DecidableEq, Repr

/-- An `OrderPacket`: its variable part is the body (the packet type and
response type are constants of the class). -/
structure OrderPacket where
  body : OrderPacketBody
  deriving DecidableEq, Repr

/-- The JSON members of an `OrderPacketBody`, in the declaration order
`JSON.stringify` serializes them. -/
def bodyFields (b : OrderPacketBody) : List (List Char × JsonPrim) :=
  [(['i', 'd'], .jstr b.id.data),
   (['p', 'a', 'i', 'r', 'I', 'd'], .jstr b.pairId.data),
   (['q', 'u', 'a', 'n', 't', 'i', 't', 'y'], .jnum b.quantity),
   (['p', 'r', 'i', 'c', 'e'], .jnum b.price),
   (['i', 'n', 'v', 'o', 'i', 'c', 'e'], .jstr b.invoice.data)]

/-- `OrderPacket.toRaw`: `JSON.stringify(this.body)`. -/
def toRaw (p : OrderPacket) : String :=
  ⟨printObject (bodyFields p.body)⟩

/-- `OrderPacket.fromRaw`: `new OrderPacket(JSON.parse(body))`, on the
JSON fragment `toRaw` emits; the whole input must be consumed and the five
body fields must be present with their expected shapes. -/
def fromRaw (raw : String) : Option OrderPacket :=
  match parseObjectTop raw.data with
  | some (fields, []) =>
    match lookupField fields ['i', 'd'], lookupField fields ['p', 'a', 'i', 'r', 'I', 'd'],
        lookupField fields ['q', 'u', 'a', 'n', 't', 'i', 't', 'y'],
        lookupField fields ['p', 'r', 'i', 'c', 'e'],
        lookupField fields ['i', 'n', 'v', 'o', 'i', 'c', 'e'] with
    | some (.jstr id), some (.jstr pairId), some (.jnum quantity),
        some (.jnum price), some (.jstr invoice) =>
      some ⟨⟨⟨id⟩, ⟨pairId⟩, quantity, price, ⟨invoice⟩⟩⟩
    | _, _, _, _, _ => none
  | _ => none

/-! ## Helper lemmas -/

/-- The classifier produces exactly the two swap error kinds, selected by
the error's code. -/
lemma classifySendPaymentError_eq (e : ThrownError) :
    classifySendPaymentError e =
      if e.code = some ErrorCode.econnreset ∨ e.code = some ErrorCode.unexpected ∨
          e.code = some ErrorCode.timeout ∨ e.code = some ErrorCode.serverError ∨
          e.code = some ErrorCode.invalidTokenPaymentResponse
      then .unknownPaymentError e.message
      else .finalPaymentError e.message := by
  obtain ⟨c, m⟩ := e
  cases c with
  | none => simp [classifySendPaymentError]
  | some code => cases code <;> simp [classifySendPaymentError]

/-- The classifier never yields the assertion failure nor a raw error. -/
lemma classifySendPaymentError_classified (e : ThrownError) :
    (∃ m, classifySendPaymentError e = .unknownPaymentError m) ∨
    (∃ m, classifySendPaymentError e = .finalPaymentError m) := by
  rw [classifySendPaymentError_eq]
  split
  · exact .inl ⟨e.message, rfl⟩
  · exact .inr ⟨e.message, rfl⟩

/-- A string of the form `"0x" ++ t` passes the preimage check of
`executeHashLockTransfer` and `executeHashLockResolve`: it is truthy,
starts with `0x`, and slicing off two characters leaves `t`. -/
lemma prefix0x_check (t : String) :
    jsStrTruthy ("0x" ++ t) = true ∧ jsStartsWith ("0x" ++ t) "0x" = true ∧
      jsSlice2 ("0x" ++ t) = t := by
  obtain ⟨l⟩ := t
  refine ⟨rfl, ?_, rfl⟩
  show (['0', 'x'].isPrefixOf (['0', 'x'] ++ l)) = true
  simp [List.isPrefixOf]

/-! ## Claim theorems -/

/-- C1: for every deal entering `sendPayment` past its preconditions, when
the deal's role is Maker and its `rPreimage` is set the only backend leg
call is `executeHashLockResolve` on that preimage (never
`executeHashLockTransfer`); otherwise the only leg call is
`executeHashLockTransfer` with the maker units as amount, the maker
currency's token address, the deal's `rHash` as lock hash and
`makerCltvDelta` as timelock (never `executeHashLockResolve`). -/
theorem sendPayment_maker_resolve_taker_transfer
    (transferRequest : TokenPaymentRequest → Except ThrownError ConnextTransferResponse)
    (resolveRequest : String → Except ThrownError Unit)
    (tokenAddresses : String → Option String)
    (deal : SwapDeal)
    (hstate : deal.state = SwapState.Active)
    (hdest : jsTruthy deal.destination = true) :
    (deal.role = SwapRole.Maker ∧ jsTruthy deal.rPreimage = true →
      (sendPayment transferRequest resolveRequest tokenAddresses deal).2 =
        [LegCall.resolve (deal.rPreimage.getD "")]) ∧
    (¬(deal.role = SwapRole.Maker ∧ jsTruthy deal.rPreimage = true) →
      (sendPayment transferRequest resolveRequest tokenAddresses deal).2 =
        [LegCall.transfer
          { amount := toString deal.makerUnits
            assetId := tokenAddresses deal.makerCurrency
            lockHash := deal.rHash
            timelock := deal.makerCltvDelta }]) := by
  unfold sendPayment
  rw [if_neg (not_not_intro ⟨hstate, hdest⟩)]
  refine ⟨fun h => ?_, fun h => ?_⟩
  · rw [if_pos h]
  · rw [if_neg h]

/-- C1 witness: a Maker deal with a known preimage performs exactly the
resolve call. -/
theorem sendPayment_maker_resolve_taker_transfer_witness :
    (sendPayment (fun _ => .ok ⟨some "0xab"⟩) (fun _ => .ok ()) (fun _ => some "tok")
      { state := .Active, role := .Maker, destination := some "d",
        rPreimage := some "0xcd", rHash := "h", takerCurrency := "ETH",
        makerCurrency := "BTC", takerUnits := 5, makerUnits := 7,
        makerCltvDelta := some 144 }).2 = [LegCall.resolve "0xcd"] :=
  (sendPayment_maker_resolve_taker_transfer (fun _ => .ok ⟨some "0xab"⟩)
    (fun _ => .ok ()) (fun _ => some "tok")
    { state := .Active, role := .Maker, destination := some "d",
      rPreimage := some "0xcd", rHash := "h", takerCurrency := "ETH",
      makerCurrency := "BTC", takerUnits := 5, makerUnits := 7,
      makerCltvDelta := some 144 } rfl rfl).1 ⟨rfl, rfl⟩

/-- C2: `sendPayment` on a deal that is not `Active`, or whose destination
is unset, fails with the assertion violation and performs no backend call;
when the deal is `Active` with a truthy destination, the assertion branch
is not taken. -/
theorem sendPayment_active_precondition
    (transferRequest : TokenPaymentRequest → Except ThrownError ConnextTransferResponse)
    (resolveRequest : String → Except ThrownError Unit)
    (tokenAddresses : String → Option String)
    (deal : SwapDeal) :
    (¬(deal.state = SwapState.Active ∧ jsTruthy deal.destination = true) →
      sendPayment transferRequest resolveRequest tokenAddresses deal =
        (.error .assertionViolation, [])) ∧
    (deal.state = SwapState.Active → jsTruthy deal.destination = true →
      (sendPayment transferRequest resolveRequest tokenAddresses deal).1 ≠
        .error .assertionViolation) := by
  constructor
  · intro h
    unfold sendPayment
    rw [if_pos h]
  · intro hstate hdest
    unfold sendPayment
    rw [if_neg (not_not_intro ⟨hstate, hdest⟩)]
    split
    · cases h' : executeHashLockResolve resolveRequest (deal.rPreimage.getD "") with
      | ok s => simp [h']
      | error e =>
        rcases classifySendPaymentError_classified e with ⟨m, hm⟩ | ⟨m, hm⟩ <;>
          simp [h', hm]
    · cases h' : executeHashLockTransfer transferRequest
        { amount := toString deal.makerUnits
          assetId := tokenAddresses deal.makerCurrency
          lockHash := deal.rHash
          timelock := deal.makerCltvDelta } with
      | ok s => simp [h']
      | error e =>
        rcases classifySendPaymentError_classified e with ⟨m, hm⟩ | ⟨m, hm⟩ <;>
          simp [h', hm]

/-- C2 witness: a `Created` deal is rejected by the assertion with no
backend call; an `Active` deal with a destination is not. -/
theorem sendPayment_active_precondition_witness :
    sendPayment (fun _ => .ok ⟨some "0xab"⟩) (fun _ => .ok ()) (fun _ => none)
      { state := .Created, role := .Taker, destination := some "d",
        rPreimage := none, rHash := "h", takerCurrency := "A",
        makerCurrency := "B", takerUnits := 1, makerUnits := 2,
        makerCltvDelta := none } = (.error .assertionViolation, []) ∧
    (sendPayment (fun _ => .ok ⟨some "0xab"⟩) (fun _ => .ok ()) (fun _ => none)
      { state := .Active, role := .Taker, destination := some "d",
        rPreimage := none, rHash := "h", takerCurrency := "A",
        makerCurrency := "B", takerUnits := 1, makerUnits := 2,
        makerCltvDelta := none }).1 ≠ .error .assertionViolation :=
  ⟨(sendPayment_active_precondition _ _ _ _).1 (by decide),
   (sendPayment_active_precondition _ _ _ _).2 rfl rfl⟩

/-- C3: on a successful transfer request, a missing or non-`0x`-prefixed
preimage makes `executeHashLockTransfer` fail with
`INVALID_TOKEN_PAYMENT_RESPONSE`, and a `0x`-prefixed preimage makes it
succeed with the prefix stripped; `executeHashLockResolve` behaves the
same way with respect to its preimage argument. -/
theorem hashlock_preimage_validation :
    (∀ (payload : TokenPaymentRequest) (resp : ConnextTransferResponse),
      (resp.preImage = none →
        executeHashLockTransfer (fun _ => .ok resp) payload =
          .error INVALID_TOKEN_PAYMENT_RESPONSE) ∧
      (∀ s, resp.preImage = some s → jsStartsWith s "0x" = false →
        executeHashLockTransfer (fun _ => .ok resp) payload =
          .error INVALID_TOKEN_PAYMENT_RESPONSE) ∧
      (∀ t, resp.preImage = some ("0x" ++ t) →
        executeHashLockTransfer (fun _ => .ok resp) payload = .ok t)) ∧
    (∀ preImage : String,
      (jsStartsWith preImage "0x" = false →
        executeHashLockResolve (fun _ => .ok ()) preImage =
          .error INVALID_TOKEN_PAYMENT_RESPONSE) ∧
      (∀ t, preImage = "0x" ++ t →
        executeHashLockResolve (fun _ => .ok ()) preImage = .ok t)) := by
  constructor
  · intro payload resp
    refine ⟨fun h => ?_, fun s hs hsw => ?_, fun t ht => ?_⟩
    · simp [executeHashLockTransfer, h]
    · simp [executeHashLockTransfer, hs, hsw]
    · obtain ⟨h1, h2, h3⟩ := prefix0x_check t
      simp [executeHashLockTransfer, ht, h1, h2, h3]
  · intro preImage
    refine ⟨fun hsw => ?_, fun t ht => ?_⟩
    · simp [executeHashLockResolve, hsw]
    · subst ht
      obtain ⟨h1, h2, h3⟩ := prefix0x_check t
      simp [executeHashLockResolve, h1, h2, h3]

/-- C3 witness: concrete malformed and well-formed preimages. -/
theorem hashlock_preimage_validation_witness :
    executeHashLockTransfer (fun _ => .ok ⟨none⟩)
        { amount := "1", assetId := some "tok", lockHash := "h", timelock := some 1 } =
      .error INVALID_TOKEN_PAYMENT_RESPONSE ∧
    executeHashLockTransfer (fun _ => .ok ⟨some "abc"⟩)
        { amount := "1", assetId := some "tok", lockHash := "h", timelock := some 1 } =
      .error INVALID_TOKEN_PAYMENT_RESPONSE ∧
    executeHashLockTransfer (fun _ => .ok ⟨some ("0x" ++ "ab")⟩)
        { amount := "1", assetId := some "tok", lockHash := "h", timelock := some 1 } =
      .ok "ab" ∧
    executeHashLockResolve (fun _ => .ok ()) "abc" =
      .error INVALID_TOKEN_PAYMENT_RESPONSE ∧
    executeHashLockResolve (fun _ => .ok ()) ("0x" ++ "ab") = .ok "ab" :=
  ⟨(hashlock_preimage_validation.1 _ ⟨none⟩).1 rfl,
   (hashlock_preimage_validation.1 _ ⟨some "abc"⟩).2.1 "abc" rfl (by decide),
   (hashlock_preimage_validation.1 _ ⟨some ("0x" ++ "ab")⟩).2.2 "ab" rfl,
   (hashlock_preimage_validation.2 "abc").1 (by decide),
   (hashlock_preimage_validation.2 ("0x" ++ "ab")).2 "ab" rfl⟩

/-- C4: `sendRequest` maps HTTP status codes to the shared error taxonomy:
200/201/204 succeed, 402 is `INSUFFICIENT_BALANCE`, 408 is `TIMEOUT`, 409
rejects with the message carried in the response body, 500 is
`SERVER_ERROR`, and every other status is `UNEXPECTED`. -/
theorem sendRequest_status_taxonomy :
    (∀ m, sendRequest 200 m = .ok () ∧ sendRequest 201 m = .ok () ∧
      sendRequest 204 m = .ok ()) ∧
    (∀ m, sendRequest 402 m = .error INSUFFICIENT_BALANCE) ∧
    (∀ m, sendRequest 408 m = .error TIMEOUT) ∧
    (∀ m, sendRequest 409 m = .error ⟨none, m⟩) ∧
    (∀ m, sendRequest 500 m = .error SERVER_ERROR) ∧
    (∀ code m, code ∉ [200, 201, 204, 402, 408, 409, 500] →
      sendRequest code m = .error UNEXPECTED) := by
  refine ⟨fun m => ⟨rfl, rfl, rfl⟩, fun m => rfl, fun m => rfl, fun m => rfl,
    fun m => rfl, fun code m hmem => ?_⟩
  simp only [List.mem_cons, List.not_mem_nil, or_false, not_or] at hmem
  obtain ⟨h200, h201, h204, h402, h408, h409, h500⟩ := hmem
  simp [sendRequest, h200, h201, h204, h402, h408, h409, h500]

/-- C4 witness: an unlisted status such as 404 maps to `UNEXPECTED`. -/
theorem sendRequest_status_taxonomy_witness :
    sendRequest 404 "conflict" = .error UNEXPECTED ∧
    sendRequest 402 "m" = .error INSUFFICIENT_BALANCE :=
  ⟨sendRequest_status_taxonomy.2.2.2.2.2 404 "conflict" (by decide),
   sendRequest_status_taxonomy.2.1 "m"⟩

/-- C5: past its assertions, `sendPayment` surfaces only the two
classified swap errors: every outcome is a success, an
`UNKNOWN_PAYMENT_ERROR` or a `FINAL_PAYMENT_ERROR` (never a raw backend
error), and a leg failing with error `e` is surfaced as
`UNKNOWN_PAYMENT_ERROR` exactly when `e`'s code is one of ECONNRESET,
UNEXPECTED, TIMEOUT, SERVER_ERROR, INVALID_TOKEN_PAYMENT_RESPONSE, and as
`FINAL_PAYMENT_ERROR` otherwise (in particular for
INSUFFICIENT_BALANCE). -/
theorem sendPayment_error_propagation
    (tokenAddresses : String → Option String) (deal : SwapDeal)
    (hstate : deal.state = SwapState.Active)
    (hdest : jsTruthy deal.destination = true) :
    (∀ transferRequest resolveRequest,
      (∃ s, (sendPayment transferRequest resolveRequest tokenAddresses deal).1 = .ok s) ∨
      (∃ m, (sendPayment transferRequest resolveRequest tokenAddresses deal).1 =
        .error (.unknownPaymentError m)) ∨
      (∃ m, (sendPayment transferRequest resolveRequest tokenAddresses deal).1 =
        .error (.finalPaymentError m))) ∧
    (∀ e : ThrownError,
      (sendPayment (fun _ => .error e) (fun _ => .error e) tokenAddresses deal).1 =
        .error (if e.code = some ErrorCode.econnreset ∨ e.code = some ErrorCode.unexpected ∨
            e.code = some ErrorCode.timeout ∨ e.code = some ErrorCode.serverError ∨
            e.code = some ErrorCode.invalidTokenPaymentResponse
          then .unknownPaymentError e.message
          else .finalPaymentError e.message)) := by
  constructor
  · intro transferRequest resolveRequest
    unfold sendPayment
    rw [if_neg (not_not_intro ⟨hstate, hdest⟩)]
    split
    · cases h' : executeHashLockResolve resolveRequest (deal.rPreimage.getD "") with
      | ok s => exact .inl ⟨s, by simp [h']⟩
      | error e =>
        rcases classifySendPaymentError_classified e with ⟨m, hm⟩ | ⟨m, hm⟩
        · exact .inr (.inl ⟨m, by simp [h', hm]⟩)
        · exact .inr (.inr ⟨m, by simp [h', hm]⟩)
    · cases h' : executeHashLockTransfer transferRequest
        { amount := toString deal.makerUnits
          assetId := tokenAddresses deal.makerCurrency
          lockHash := deal.rHash
          timelock := deal.makerCltvDelta } with
      | ok s => exact .inl ⟨s, by simp [h']⟩
      | error e =>
        rcases classifySendPaymentError_classified e with ⟨m, hm⟩ | ⟨m, hm⟩
        · exact .inr (.inl ⟨m, by simp [h', hm]⟩)
        · exact .inr (.inr ⟨m, by simp [h', hm]⟩)
  · intro e
    unfold sendPayment
    rw [if_neg (not_not_intro ⟨hstate, hdest⟩)]
    rw [← classifySendPaymentError_eq]
    split
    · simp [executeHashLockResolve]
    · simp [executeHashLockTransfer]

/-- C5 witness: a timeout surfaces as an unknown-payment error and an
insufficient-balance rejection as a final-payment error, on a concrete
Taker deal. -/
theorem sendPayment_error_propagation_witness :
    (sendPayment (fun _ => .error TIMEOUT) (fun _ => .error TIMEOUT) (fun _ => some "tok")
      { state := .Active, role := .Taker, destination := some "d",
        rPreimage := none, rHash := "h", takerCurrency := "A",
        makerCurrency := "B", takerUnits := 1, makerUnits := 2,
        makerCltvDelta := some 40 }).1 = .error (.unknownPaymentError "timeout") ∧
    (sendPayment (fun _ => .error INSUFFICIENT_BALANCE) (fun _ => .error INSUFFICIENT_BALANCE)
      (fun _ => some "tok")
      { state := .Active, role := .Taker, destination := some "d",
        rPreimage := none, rHash := "h", takerCurrency := "A",
        makerCurrency := "B", takerUnits := 1, makerUnits := 2,
        makerCltvDelta := some 40 }).1 = .error (.finalPaymentError "insufficient balance") := by
  have h1 := (sendPayment_error_propagation (fun _ => some "tok")
    { state := .Active, role := .Taker, destination := some "d",
      rPreimage := none, rHash := "h", takerCurrency := "A",
      makerCurrency := "B", takerUnits := 1, makerUnits := 2,
      makerCltvDelta := some 40 } rfl rfl).2 TIMEOUT
  have h2 := (sendPayment_error_propagation (fun _ => some "tok")
    { state := .Active, role := .Taker, destination := some "d",
      rPreimage := none, rHash := "h", takerCurrency := "A",
      makerCurrency := "B", takerUnits := 1, makerUnits := 2,
      makerCltvDelta := some 40 } rfl rfl).2 INSUFFICIENT_BALANCE
  exact ⟨by simpa using h1, by simpa using h2⟩

/-- C6: `lookupPayment` maps the backend status `PENDING` to `Pending`,
`COMPLETED` to `Succeeded`, `EXPIRED` and `FAILED` to `Failed`, fails with
`PAYMENT_NOT_FOUND` whenever the backend query fails, and every successful
return value is drawn from the three payment states. -/
theorem lookupPayment_state_mapping :
    lookupPayment (.ok "PENDING") = .ok .Pending ∧
    lookupPayment (.ok "COMPLETED") = .ok .Succeeded ∧
    lookupPayment (.ok "EXPIRED") = .ok .Failed ∧
    lookupPayment (.ok "FAILED") = .ok .Failed ∧
    (∀ e, lookupPayment (.error e) = .error PAYMENT_NOT_FOUND) ∧
    (∀ r s, lookupPayment r = .ok s →
      s = .Pending ∨ s = .Succeeded ∨ s = .Failed) := by
  refine ⟨rfl, rfl, rfl, rfl, fun e => rfl, fun r s _ => ?_⟩
  cases s
  · exact .inl rfl
  · exact .inr (.inl rfl)
  · exact .inr (.inr rfl)

/-- C6 witness: concrete backend statuses and a failing query. -/
theorem lookupPayment_state_mapping_witness :
    lookupPayment (.ok "PENDING") = .ok .Pending ∧
    lookupPayment (.error UNEXPECTED) = .error PAYMENT_NOT_FOUND ∧
    (PaymentState.Failed = .Pending ∨ PaymentState.Failed = .Succeeded ∨
      PaymentState.Failed = .Failed) :=
  ⟨lookupPayment_state_mapping.1,
   lookupPayment_state_mapping.2.2.2.2.1 UNEXPECTED,
   lookupPayment_state_mapping.2.2.2.2.2 (.ok "whatever") .Failed rfl⟩

/-- C7: `initSpecific` with no configured seed fails with the raw
missing-seed error, performs no backend call, and leaves the client state
(in particular its status) unchanged. -/
theorem initSpecific_missing_seed
    (connectResult : Except ThrownError Unit)
    (verifyConn : ClientStatus → ClientStatus × List ApiCall)
    (st : ConnextState) (h : st.seed = none) :
    initSpecific connectResult verifyConn st = (.error MISSING_SEED_ERROR, st, []) ∧
    (initSpecific connectResult verifyConn st).2.1.status = st.status := by
  have h1 : initSpecific connectResult verifyConn st = (.error MISSING_SEED_ERROR, st, []) := by
    simp [initSpecific, h]
  exact ⟨h1, by rw [h1]⟩

/-- C7 witness: a not-initialized client with no seed stays
not-initialized, makes no call, and fails. -/
theorem initSpecific_missing_seed_witness :
    initSpecific (.ok ()) (fun s => (s, [])) ⟨none, .NotInitialized⟩ =
      (.error MISSING_SEED_ERROR, ⟨none, .NotInitialized⟩, []) ∧
    (initSpecific (.ok ()) (fun s => (s, [])) ⟨none, .NotInitialized⟩).2.1.status =
      ClientStatus.NotInitialized :=
  initSpecific_missing_seed (.ok ()) (fun s => (s, [])) ⟨none, .NotInitialized⟩ rfl

/-- C8: `channelBalance` with no currency argument returns the all-zero
balance and performs no network call. -/
theorem channelBalance_no_currency
    (tokenAddresses : String → Option String)
    (balanceRequest : String → Except ThrownError ConnextBalanceResponse)
    (unitsToAmount : String → Nat → Nat) :
    channelBalance tokenAddresses balanceRequest unitsToAmount none =
      (.ok { balance := 0, pendingOpenBalance := 0, inactiveBalance := 0 }, []) := by
  rfl

/-- C9: `lookupPayment` is total over backend outcomes: any status string
outside PENDING/COMPLETED/EXPIRED/FAILED is reported as `Failed`, every
query error becomes `PAYMENT_NOT_FOUND`, and every outcome is either a
payment state or `PAYMENT_NOT_FOUND`. -/
theorem lookupPayment_totality :
    (∀ status : String, status ≠ "PENDING" → status ≠ "COMPLETED" →
      status ≠ "EXPIRED" → status ≠ "FAILED" →
      lookupPayment (.ok status) = .ok .Failed) ∧
    (∀ e, lookupPayment (.error e) = .error PAYMENT_NOT_FOUND) ∧
    (∀ r, (∃ s, lookupPayment r = .ok s) ∨
      lookupPayment r = .error PAYMENT_NOT_FOUND) := by
  refine ⟨fun status h1 h2 h3 h4 => ?_, fun e => rfl, fun r => ?_⟩
  · simp [lookupPayment, h1, h2, h3, h4]
  · cases r with
    | ok status =>
      refine .inl ?_
      simp only [lookupPayment]
      split_ifs <;> exact ⟨_, rfl⟩
    | error e => exact .inr rfl

/-- C9 witness: an unknown backend status maps to `Failed`. -/
theorem lookupPayment_totality_witness :
    lookupPayment (.ok "UNRECOGNIZED") = .ok .Failed :=
  lookupPayment_totality.1 "UNRECOGNIZED" (by decide) (by decide) (by decide) (by decide)

/-! ## Round-trip lemmas for the OrderPacket serialization -/

/-- Decimal digit characters are digits. -/
lemma digitChar_isDigit (n : Nat) (h : n < 10) :
    (Char.ofNat (48 + n)).isDigit = true := by
  interval_cases n <;> decide

/-- Code point of a decimal digit character. -/
lemma digitChar_toNat (n : Nat) (h : n < 10) :
    (Char.ofNat (48 + n)).toNat = 48 + n := by
  interval_cases n <;> decide

/-- `hexVal` inverts `hexDigitChar` below 16. -/
lemma hexVal_hexDigitChar (n : Nat) (h : n < 16) :
    hexVal (hexDigitChar n) = some n := by
  interval_cases n <;> decide

/-- Step of `parseStringBody` at the closing quote. -/
lemma parseStringBody_quote (rest : List Char) :
    parseStringBody ('"' :: rest) = some ([], rest) := by
  rw [parseStringBody.eq_def]; simp

/-- Step of `parseStringBody` at a short escape. -/
lemma parseStringBody_esc (e : Char) (rest : List Char) (he : e ≠ 'u') :
    parseStringBody ('\\' :: e :: rest) =
      match unescapeChar e with
      | some c2 => (parseStringBody rest).map (fun p => (c2 :: p.1, p.2))
      | none => none := by
  rw [parseStringBody.eq_def]; simp [he]

/-- Step of `parseStringBody` at a `\uXXXX` escape. -/
lemma parseStringBody_u (a b c d : Char) (rest : List Char) :
    parseStringBody ('\\' :: 'u' :: a :: b :: c :: d :: rest) =
      match hexVal a, hexVal b, hexVal c, hexVal d with
      | some x1, some x2, some x3, some x4 =>
        (parseStringBody rest).map
          (fun p => (Char.ofNat (((x1 * 16 + x2) * 16 + x3) * 16 + x4) :: p.1, p.2))
      | _, _, _, _ => none := by
  rw [parseStringBody.eq_def]; simp

/-- Step of `parseStringBody` at an unescaped character. -/
lemma parseStringBody_plain (c : Char) (rest : List Char)
    (h1 : c ≠ '"') (h2 : c ≠ '\\') :
    parseStringBody (c :: rest) = (parseStringBody rest).map (fun p => (c :: p.1, p.2)) := by
  rw [parseStringBody.eq_def]; simp [h1, h2]

/-- Parsing the body of an escaped string literal recovers the string and
leaves the rest of the input. -/
lemma parseStringBody_escapeList (s : List Char) :
    ∀ rest, parseStringBody (escapeList s ++ '"' :: rest) = some (s, rest) := by
  induction s with
  | nil => intro rest; simp [escapeList, parseStringBody_quote]
  | cons c s' ih =>
    intro rest
    rw [escapeList, List.append_assoc]
    by_cases h1 : c = '"'
    · subst h1
      rw [show escapeChar '"' = ['\\', '"'] from by decide]
      simp only [List.cons_append, List.nil_append]
      rw [parseStringBody_esc '"' _ (by decide),
        show unescapeChar '"' = some '"' from by decide]
      simp [ih]
    by_cases h2 : c = '\\'
    · subst h2
      rw [show escapeChar '\\' = ['\\', '\\'] from by decide]
      simp only [List.cons_append, List.nil_append]
      rw [parseStringBody_esc '\\' _ (by decide),
        show unescapeChar '\\' = some '\\' from by decide]
      simp [ih]
    by_cases h3 : c = Char.ofNat 8
    · subst h3
      rw [show escapeChar (Char.ofNat 8) = ['\\', 'b'] from by decide]
      simp only [List.cons_append, List.nil_append]
      rw [parseStringBody_esc 'b' _ (by decide),
        show unescapeChar 'b' = some (Char.ofNat 8) from by decide]
      simp [ih]
    by_cases h4 : c = Char.ofNat 9
    · subst h4
      rw [show escapeChar (Char.ofNat 9) = ['\\', 't'] from by decide]
      simp only [List.cons_append, List.nil_append]
      rw [parseStringBody_esc 't' _ (by decide),
        show unescapeChar 't' = some (Char.ofNat 9) from by decide]
      simp [ih]
    by_cases h5 : c = Char.ofNat 10
    · subst h5
      rw [show escapeChar (Char.ofNat 10) = ['\\', 'n'] from by decide]
      simp only [List.cons_append, List.nil_append]
      rw [parseStringBody_esc 'n' _ (by decide),
        show unescapeChar 'n' = some (Char.ofNat 10) from by decide]
      simp [ih]
    by_cases h6 : c = Char.ofNat 12
    · subst h6
      rw [show escapeChar (Char.ofNat 12) = ['\\', 'f'] from by decide]
      simp only [List.cons_append, List.nil_append]
      rw [parseStringBody_esc 'f' _ (by decide),
        show unescapeChar 'f' = some (Char.ofNat 12) from by decide]
      simp [ih]
    by_cases h7 : c = Char.ofNat 13
    · subst h7
      rw [show escapeChar (Char.ofNat 13) = ['\\', 'r'] from by decide]
      simp only [List.cons_append, List.nil_append]
      rw [parseStringBody_esc 'r' _ (by decide),
        show unescapeChar 'r' = some (Char.ofNat 13) from by decide]
      simp [ih]
    by_cases h8 : c.toNat < 32
    · have hdiv : c.toNat / 16 < 16 := by omega
      have hmod : c.toNat % 16 < 16 := by omega
      unfold escapeChar
      rw [if_neg h1, if_neg h2, if_neg h3, if_neg h4, if_neg h5, if_neg h6,
        if_neg h7, if_pos h8]
      simp only [List.cons_append, List.nil_append]
      rw [parseStringBody_u]
      have h0 : hexVal '0' = some 0 := by decide
      simp only [h0, hexVal_hexDigitChar _ hdiv, hexVal_hexDigitChar _ hmod, ih]
      have hval : ((0 * 16 + 0) * 16 + c.toNat / 16) * 16 + c.toNat % 16 = c.toNat := by
        omega
      rw [hval, Char.ofNat_toNat]
      rfl
    · unfold escapeChar
      rw [if_neg h1, if_neg h2, if_neg h3, if_neg h4, if_neg h5, if_neg h6,
        if_neg h7, if_neg h8]
      simp only [List.cons_append, List.nil_append]
      rw [parseStringBody_plain _ _ h1 h2]
      simp [ih]

/-- `printNatAux` always starts with a digit character. -/
lemma headIsDigit_printNatAux (n : Nat) :
    ∀ suffix, headIsDigit (printNatAux n suffix) = true := by
  induction n using Nat.strong_induction_on with
  | _ n ih =>
    intro suffix
    by_cases h : n < 10
    · rw [printNatAux.eq_def, dif_pos h]
      exact digitChar_isDigit n h
    · rw [printNatAux.eq_def, dif_neg h]
      exact ih (n / 10) (Nat.div_lt_self (by omega) (by omega)) _

/-- `parseDigitsAux` stops at a non-digit head. -/
lemma parseDigitsAux_stop (a : Nat) (l : List Char) (h : headIsDigit l = false) :
    parseDigitsAux a l = (a, l) := by
  cases l with
  | nil => rfl
  | cons c rest =>
    have hc : c.isDigit = false := h
    simp only [parseDigitsAux]
    rw [if_neg (by simp [hc])]

/-- Consuming the digits printed by `printNatAux` multiplies the
accumulator by the printed magnitude and adds the printed value. -/
lemma parseDigitsAux_printNatAux (n : Nat) :
    ∀ a suffix, parseDigitsAux a (printNatAux n suffix) =
      parseDigitsAux (a * 10 ^ digitCount n + n) suffix := by
  induction n using Nat.strong_induction_on with
  | _ n ih =>
    intro a suffix
    by_cases h : n < 10
    · rw [printNatAux.eq_def, dif_pos h, digitCount.eq_def, if_pos h]
      simp only [parseDigitsAux]
      rw [if_pos (digitChar_isDigit n h), digitChar_toNat n h]
      congr 1
      rw [pow_one]
      omega
    · rw [printNatAux.eq_def, dif_neg h]
      rw [ih (n / 10) (Nat.div_lt_self (by omega) (by omega))]
      have h10 : n % 10 < 10 := Nat.mod_lt _ (by omega)
      simp only [parseDigitsAux]
      rw [if_pos (digitChar_isDigit _ h10), digitChar_toNat _ h10]
      have hdc : digitCount n = digitCount (n / 10) + 1 := by
        rw [digitCount.eq_def, if_neg h]
      rw [hdc, pow_succ, ← Nat.mul_assoc]
      congr 1
      generalize a * 10 ^ digitCount (n / 10) = m
      omega

/-- `parseNatNum` inverts `printNatAux` when the suffix does not continue
with a digit. -/
lemma parseNatNum_printNatAux (n : Nat) (suffix : List Char)
    (h : headIsDigit suffix = false) :
    parseNatNum (printNatAux n suffix) = some (n, suffix) := by
  unfold parseNatNum
  rw [if_pos (headIsDigit_printNatAux n suffix), parseDigitsAux_printNatAux]
  simp only [Nat.zero_mul, Nat.zero_add]
  rw [parseDigitsAux_stop _ _ h]

/-- Moving the accumulator of `printNatAux` across an append. -/
lemma printNatAux_append (n : Nat) :
    ∀ acc rest, printNatAux n acc ++ rest = printNatAux n (acc ++ rest) := by
  induction n using Nat.strong_induction_on with
  | _ n ih =>
    intro acc rest
    by_cases h : n < 10
    · rw [printNatAux.eq_def, dif_pos h]
      conv_rhs => rw [printNatAux.eq_def, dif_pos h]
      rfl
    · rw [printNatAux.eq_def, dif_neg h]
      conv_rhs => rw [printNatAux.eq_def, dif_neg h]
      rw [ih (n / 10) (Nat.div_lt_self (by omega) (by omega))]
      rfl

/-- Step of `parseJValue` at a string literal. -/
lemma parseJValue_quote (rest : List Char) :
    parseJValue ('"' :: rest) =
      (parseStringBody rest).map (fun p => (JsonPrim.jstr p.1, p.2)) := by
  rfl

/-- Step of `parseJValue` at a minus sign. -/
lemma parseJValue_dash (rest : List Char) :
    parseJValue ('-' :: rest) =
      match parseNatNum rest with
      | some (n, rest2) => some (JsonPrim.jnum (-(n : Int)), rest2)
      | none => none := by
  rfl

/-- Step of `parseJValue` at any other character. -/
lemma parseJValue_other (c : Char) (rest : List Char) (h1 : c ≠ '"') (h2 : c ≠ '-') :
    parseJValue (c :: rest) =
      match parseNatNum (c :: rest) with
      | some (n, rest2) => some (JsonPrim.jnum (n : Int), rest2)
      | none => none := by
  simp only [parseJValue]
  rw [if_neg h1, if_neg h2]

/-- A digit character heads neither a string literal nor a negative
number. -/
lemma isDigit_ne (c : Char) (h : c.isDigit = true) : c ≠ '"' ∧ c ≠ '-' := by
  constructor <;> intro he <;> rw [he] at h <;> exact absurd h (by decide)

/-- Parsing a printed primitive value recovers it, provided the rest of
the input does not begin with a digit. -/
lemma parseJValue_printPrim (v : JsonPrim) (rest : List Char)
    (h : headIsDigit rest = false) :
    parseJValue (printPrim v ++ rest) = some (v, rest) := by
  cases v with
  | jstr s =>
    simp only [printPrim, strLit, List.cons_append, List.append_assoc,
      List.singleton_append]
    rw [parseJValue_quote, parseStringBody_escapeList]
    rfl
  | jnum i =>
    by_cases hneg : i < 0
    · simp only [printPrim, printInt]
      rw [if_pos hneg]
      simp only [List.cons_append]
      rw [printNatAux_append, List.nil_append]
      rw [parseJValue_dash, parseNatNum_printNatAux _ _ h]
      have hi : -((i.natAbs : Nat) : Int) = i := by omega
      show some (JsonPrim.jnum (-((i.natAbs : Nat) : Int)), rest) = _
      rw [hi]
    · simp only [printPrim, printInt]
      rw [if_neg hneg]
      rw [printNatAux_append, List.nil_append]
      have hd := headIsDigit_printNatAux i.natAbs rest
      cases hl : printNatAux i.natAbs rest with
      | nil => rw [hl] at hd; exact absurd hd (by decide)
      | cons c0 rest0 =>
        rw [hl] at hd
        obtain ⟨hne1, hne2⟩ := isDigit_ne c0 hd
        rw [parseJValue_other c0 rest0 hne1 hne2, ← hl,
          parseNatNum_printNatAux _ _ h]
        have hi : ((i.natAbs : Nat) : Int) = i := by omega
        show some (JsonPrim.jnum ((i.natAbs : Nat) : Int), rest) = _
        rw [hi]

/-- Step of `parseMembers` at a member key. -/
lemma parseMembers_step (fuel : Nat) (l : List Char) :
    parseMembers (fuel + 1) ('"' :: l) =
      match parseStringBody l with
      | none => none
      | some (key, rest1) =>
        match rest1 with
        | [] => none
        | c1 :: rest2 =>
          if c1 = ':' then
            match parseJValue rest2 with
            | none => none
            | some (v, rest3) =>
              match rest3 with
              | [] => none
              | c2 :: rest4 =>
                if c2 = ',' then
                  match parseMembers fuel rest4 with
                  | none => none
                  | some (fields, rest5) => some ((key, v) :: fields, rest5)
                else if c2 = '}' then some ([(key, v)], rest4)
                else none
          else none := by
  rfl

/-- A printed member followed by a comma or closing brace parses back,
continuing on the tail. -/
lemma parseMembers_printInner (fields : List (List Char × JsonPrim)) :
    ∀ (fuel : Nat) (rest : List Char), fields ≠ [] → fields.length ≤ fuel →
      parseMembers fuel (printInner fields ++ '}' :: rest) = some (fields, rest) := by
  induction fields with
  | nil => intro fuel rest hne; exact absurd rfl hne
  | cons f fs ih =>
    intro fuel rest _ hlen
    obtain ⟨fuel, rfl⟩ : ∃ m, fuel = m + 1 :=
      ⟨fuel - 1, by simp at hlen; omega⟩
    obtain ⟨k, v⟩ := f
    cases fs with
    | nil =>
      simp only [printInner, printMember, strLit, List.cons_append,
        List.append_assoc, List.singleton_append]
      rw [parseMembers_step, parseStringBody_escapeList]
      show (if ':' = ':' then _ else none) = _
      rw [if_pos rfl]
      rw [parseJValue_printPrim v ('}' :: rest) rfl]
      show (if '}' = ',' then _ else if '}' = '}' then _ else none) = _
      rw [if_neg (by decide), if_pos rfl]
    | cons f2 fs' =>
      have hinner : printInner ((k, v) :: f2 :: fs') =
          printMember (k, v) ++ ',' :: printInner (f2 :: fs') := rfl
      rw [hinner]
      simp only [printMember, strLit, List.cons_append, List.append_assoc,
        List.singleton_append]
      rw [parseMembers_step, parseStringBody_escapeList]
      show (if ':' = ':' then _ else none) = _
      rw [if_pos rfl]
      rw [parseJValue_printPrim v (',' :: (printInner (f2 :: fs') ++ '}' :: rest))
        rfl]
      show (if ',' = ',' then _ else if ',' = '}' then _ else none) = _
      rw [if_pos rfl]
      rw [ih fuel rest (by simp) (by simp at hlen ⊢; omega)]

/-- A printed member is nonempty. -/
lemma printMember_length_pos (f : List Char × JsonPrim) :
    0 < (printMember f).length := by
  simp [printMember, strLit]

/-- An object's printed members are at least as long as the member list. -/
lemma printInner_length (fields : List (List Char × JsonPrim)) :
    fields.length ≤ (printInner fields).length := by
  induction fields with
  | nil => simp [printInner]
  | cons f fs ih =>
    cases fs with
    | nil => simpa [printInner] using printMember_length_pos f
    | cons f2 fs' =>
      have h1 := printMember_length_pos f
      have heq : printInner (f :: f2 :: fs') =
          printMember f ++ ',' :: printInner (f2 :: fs') := rfl
      rw [heq]
      simp only [List.length_append, List.length_cons] at ih ⊢
      omega

/-- Step of `parseObjectTop` past the opening brace of a nonempty
object. -/
lemma parseObjectTop_step (c1 : Char) (r : List Char) (h : c1 ≠ '}') :
    parseObjectTop ('{' :: c1 :: r) = parseMembers (c1 :: r).length (c1 :: r) := by
  simp [parseObjectTop, h]

/-- `parseObjectTop` inverts `printObject`, consuming the whole input. -/
lemma parseObjectTop_printObject (fields : List (List Char × JsonPrim)) :
    parseObjectTop (printObject fields) = some (fields, []) := by
  cases fields with
  | nil => rfl
  | cons f fs =>
    obtain ⟨k, v⟩ := f
    have hshape : ∃ t, printInner ((k, v) :: fs) = '"' :: t := by
      cases fs <;> exact ⟨_, rfl⟩
    obtain ⟨t, ht⟩ := hshape
    have hobj : printObject ((k, v) :: fs) = '{' :: '"' :: (t ++ ['}']) := by
      rw [printObject, ht]
      rfl
    rw [hobj, parseObjectTop_step '"' (t ++ ['}']) (by decide)]
    have hback : '"' :: (t ++ ['}']) = printInner ((k, v) :: fs) ++ '}' :: [] := by
      rw [ht]
      rfl
    rw [hback]
    refine parseMembers_printInner _ _ _ (by simp) ?_
    have hlen := printInner_length ((k, v) :: fs)
    simp only [List.length_cons] at hlen
    simp only [List.length_append, List.length_cons, List.length_nil]
    omega

/-- C10 helper: `fromRaw` recovers the packet that `toRaw` serialized. -/
lemma fromRaw_toRaw (b : OrderPacketBody) :
    fromRaw (toRaw ⟨b⟩) = some ⟨b⟩ := by
  have hdata : (toRaw ⟨b⟩).data = printObject (bodyFields b) := rfl
  unfold fromRaw
  rw [hdata, parseObjectTop_printObject]
  simp [bodyFields, lookupField]

/-- C10: serializing an `OrderPacket` built from any body with `toRaw`
and parsing the result with `fromRaw` yields a packet whose body fields
(id, pairId, quantity, price, invoice) equal those of the original
body. -/
theorem orderPacket_serialization_roundtrip (b : OrderPacketBody) :
    ∃ p : OrderPacket, fromRaw (toRaw ⟨b⟩) = some p ∧
      p.body.id = b.id ∧ p.body.pairId = b.pairId ∧
      p.body.quantity = b.quantity ∧ p.body.price = b.price ∧
      p.body.invoice = b.invoice :=
  ⟨⟨b⟩, fromRaw_toRaw b, rfl, rfl, rfl, rfl, rfl⟩

end Xud
